import Mathlib

/-!
Verification of the sam3d-v2 repository: two thin front-ends (`app.py`, a
Gradio web demo, and `handler.py`, a RunPod serverless handler) around an
external 3D-reconstruction model.  The external collaborators (the cloned
repository's `Inference` object, the `rembg` background remover, PIL image
operations, the filesystem) are modelled as an explicit environment of
opaque fallible functions; the repository's own request-handling code is
embedded shallowly, one definition per Python function, with an explicit
event trace recording every call into the external model pipeline.
-/

namespace Sam3d

/-- A PIL image: its mode string (for example "RGB" or "RGBA") and its pixel
data as rows of pixels, each pixel a list of band values. -/
structure PImage where
  mode : String
  data : List (List (List Nat))
deriving DecidableEq

/-- A numpy H x W x C array of naturals, as produced by `np.array(image)`. -/
abbrev Arr3 := List (List (List Nat))

/-- A numpy H x W boolean array, as produced by `np.array(mask) > 0`. -/
abbrev Mask2 := List (List Bool)

/-- Raw file bytes. -/
abbrev Bytes := List Nat

/-- The loaded `Inference` object is opaque; we identify it by a tag. -/
abbrev Model := Nat

/-- The object returned by a call to the inference model is opaque. -/
abbrev ModelOutput := Nat

/-- A JSON object with string values, as returned by the serverless handler. -/
abbrev JsonObj := List (String × String)

/-- The filesystem, as a map from absolute path to file bytes. -/
abbrev FS := List (String × Bytes)

/-- Write bytes to a path, replacing any previous content. -/
def fsWrite (fs : FS) (p : String) (b : Bytes) : FS :=
  (p, b) :: fs.filter (fun e => e.1 != p)

/-- Read the bytes at a path; `open(path, "rb").read()`. -/
def fsRead (fs : FS) (p : String) : Except String Bytes :=
  match fs.lookup p with
  | some b => .ok b
  | none => .error ("No such file or directory: " ++ p)

/-- `os.path.exists`. -/
def fsExists (fs : FS) (p : String) : Bool :=
  (fs.lookup p).isSome

/-- `os.remove`. -/
def fsRemove (fs : FS) (p : String) : FS :=
  fs.filter (fun e => e.1 != p)

/-- Events recording the calls the request-handling code makes into the
model pipeline (model loader, model construction, background remover,
inference call, output serialization). -/
inductive Event where
  | loadModelCall : Event
  | constructModel : Event
  | rembgCall (img : PImage) : Event
  | inferCall (image : Arr3) (mask : Mask2) (seed : Nat) : Event
  | savePlyCall (out : ModelOutput) : Event
deriving DecidableEq

/-- The environment of external collaborators, consumed as opaque fallible
functions: module import success, config-file existence, `Inference`
construction, PIL `convert("RGB")`, `rembg.remove`, the inference call,
the output object's `save_ply` (returning the bytes it writes),
`PIL.Image.open`, and the working directory used by `os.path.abspath`. -/
structure Env where
  inferenceAvailable : Bool
  configExists : Bool
  mkModel : Except String Model
  cwd : String
  convert : PImage → Except String PImage
  rembgRemove : PImage → Except String PImage
  inferCall : Model → Arr3 → Mask2 → Nat → Except String ModelOutput
  savePly : ModelOutput → Except String Bytes
  imageOpen : Bytes → Except String PImage

/-! ### Base64 (Python `base64.b64encode` / `base64.b64decode`) -/

/-- The standard base64 alphabet. -/
def b64alph : List Char :=
  "ABCDEFGHIJKLMNOPQRSTUVWXYZabcdefghijklmnopqrstuvwxyz0123456789+/".toList

/-- The base64 character for a 6-bit group. -/
def b64char (i : Nat) : Char :=
  b64alph.getD i 'A'

/-- The 6-bit group for a base64 character, if it is in the alphabet. -/
def b64index (c : Char) : Option Nat :=
  b64alph.findIdx? (fun d => d == c)

/-- Base64-encode a byte list, with `=` padding. -/
def b64encodeBytes : Bytes → List Char
  | [] => []
  | [a] =>
    [b64char (a % 256 / 4), b64char (a % 256 % 4 * 16), '=', '=']
  | [a, b] =>
    [b64char (a % 256 / 4), b64char (a % 256 % 4 * 16 + b % 256 / 16),
     b64char (b % 256 % 16 * 4), '=']
  | a :: b :: c :: rest =>
    b64char (a % 256 / 4) :: b64char (a % 256 % 4 * 16 + b % 256 / 16) ::
    b64char (b % 256 % 16 * 4 + c % 256 / 64) :: b64char (c % 256 % 64) ::
    b64encodeBytes rest

/-- Base64-decode a character list; `none` on malformed input. -/
def b64decodeChars : List Char → Option Bytes
  | [] => some []
  | c1 :: c2 :: c3 :: c4 :: rest =>
    match b64index c1, b64index c2 with
    | some i1, some i2 =>
      if c3 = '=' then
        if c4 = '=' ∧ rest = [] then some [i1 * 4 + i2 / 16] else none
      else
        match b64index c3 with
        | some i3 =>
          if c4 = '=' then
            if rest = [] then some [i1 * 4 + i2 / 16, i2 % 16 * 16 + i3 / 4]
            else none
          else
            match b64index c4 with
            | some i4 =>
              match b64decodeChars rest with
              | some bs =>
                some ((i1 * 4 + i2 / 16) :: (i2 % 16 * 16 + i3 / 4) ::
                      (i3 % 4 * 64 + i4) :: bs)
              | none => none
            | none => none
        | none => none
    | _, _ => none
  | _ => none

/-- `base64.b64encode(bs).decode("utf-8")`. -/
def b64encode (bs : Bytes) : String :=
  String.mk (b64encodeBytes bs)

/-- `base64.b64decode(s)`, `none` standing for a raised `binascii.Error`. -/
def b64decode (s : String) : Option Bytes :=
  b64decodeChars s.toList

/-- Every entry of a byte list is an actual byte value. -/
def ByteOK (bs : Bytes) : Prop :=
  ∀ b ∈ bs, b < 256

/-! ### The web demo, `app.py` -/

namespace App

/-- `app.py` `load_model`: returns the process-global `model`, constructing
the `Inference` object first when the global is still `None`.  Result,
updated global, and the trace of pipeline events. -/
def load_model (env : Env) (st : Option Model) :
    Except String Model × Option Model × List Event :=
  match st with
  | some m => (.ok m, some m, [.loadModelCall])
  | none =>
    if env.inferenceAvailable then
      if env.configExists then
        match env.mkModel with
        | .ok m => (.ok m, some m, [.loadModelCall, .constructModel])
        | .error e => (.error e, none, [.loadModelCall, .constructModel])
      else
        (.error ("Config file not found at " ++ env.cwd ++
                 "/sam-3d-objects/checkpoints/hf/pipeline.yaml"),
         none, [.loadModelCall])
    else
      (.error "Could not import SAM3D Inference module.", none, [.loadModelCall])

/-- `app.py` lines 106-109: `input_image.convert("RGB")` unless the mode is
already `"RGB"`. -/
def rgbOf (env : Env) (img : PImage) : Except String PImage :=
  if img.mode ≠ "RGB" then env.convert img else .ok img

/-- `app.py` line 111: `np.array(input_image_rgb).astype(np.uint8)`. -/
def imageNp (img : PImage) : Arr3 :=
  img.data.map (fun r => r.map (fun px => px.map (fun v => v % 256)))

/-- `app.py` line 117: `rembg_output.split()[-1]`, the last band. -/
def lastBand (img : PImage) : List (List Nat) :=
  img.data.map (fun r => r.map (fun px => px.getLastD 0))

/-- `app.py` line 118: `np.array(mask_pil) > 0`. -/
def maskNp (rembg_output : PImage) : Mask2 :=
  (lastBand rembg_output).map (fun r => r.map (fun v => decide (0 < v)))

/-- `app.py` line 126: `f"output_{run_id}.ply"`. -/
def plyName (run_id : String) : String :=
  "output_" ++ run_id ++ ".ply"

/-- `app.py` line 127: `os.path.abspath(output_ply_name)`. -/
def plyPath (env : Env) (run_id : String) : String :=
  env.cwd ++ "/" ++ plyName run_id

/-- The body of the `try` block of `app.py`'s `process` (lines 99-132):
load the model, convert to RGB, build the uint8 image array, remove the
background, build the boolean mask, run inference with seed 42, save the
PLY file, and return its absolute path. -/
def tryBody (env : Env) (st : Option Model) (fs : FS) (run_id : String)
    (input_image : PImage) :
    Except String String × Option Model × FS × List Event :=
  match load_model env st with
  | (.error e, st1, tr) => (.error e, st1, fs, tr)
  | (.ok current_model, st1, tr) =>
    match rgbOf env input_image with
    | .error e => (.error e, st1, fs, tr)
    | .ok input_image_rgb =>
      match env.rembgRemove input_image_rgb with
      | .error e => (.error e, st1, fs, tr ++ [.rembgCall input_image_rgb])
      | .ok rembg_output =>
        match env.inferCall current_model (imageNp input_image_rgb)
            (maskNp rembg_output) 42 with
        | .error e =>
          (.error e, st1, fs,
           tr ++ [.rembgCall input_image_rgb,
                  .inferCall (imageNp input_image_rgb) (maskNp rembg_output) 42])
        | .ok output =>
          match env.savePly output with
          | .error e =>
            (.error e, st1, fs,
             tr ++ [.rembgCall input_image_rgb,
                    .inferCall (imageNp input_image_rgb) (maskNp rembg_output) 42,
                    .savePlyCall output])
          | .ok plyBytes =>
            (.ok (plyPath env run_id), st1,
             fsWrite fs (plyPath env run_id) plyBytes,
             tr ++ [.rembgCall input_image_rgb,
                    .inferCall (imageNp input_image_rgb) (maskNp rembg_output) 42,
                    .savePlyCall output])

/-- `app.py`'s `process` (lines 94-137): `None` input returns `(None, None)`
at once; otherwise the `try` body runs, a success returning the saved path
in both output positions and any exception being re-raised as
`gr.Error(f"Error processing image: {e}")`. -/
def process (env : Env) (st : Option Model) (fs : FS) (run_id : String)
    (input_image : Option PImage) :
    Except String (Option String × Option String) × Option Model × FS × List Event :=
  match input_image with
  | none => (.ok (none, none), st, fs, [])
  | some img =>
    match tryBody env st fs run_id img with
    | (.ok p, st1, fs1, tr) => (.ok (some p, some p), st1, fs1, tr)
    | (.error e, st1, fs1, tr) =>
      (.error ("Error processing image: " ++ e), st1, fs1, tr)

end App

/-! ### The serverless handler, `handler.py` -/

namespace Handler

/-- `handler.py` `load_model` (lines 68-83), identical to `app.py`'s. -/
def load_model (env : Env) (st : Option Model) :
    Except String Model × Option Model × List Event :=
  match st with
  | some m => (.ok m, some m, [.loadModelCall])
  | none =>
    if env.inferenceAvailable then
      if env.configExists then
        match env.mkModel with
        | .ok m => (.ok m, some m, [.loadModelCall, .constructModel])
        | .error e => (.error e, none, [.loadModelCall, .constructModel])
      else
        (.error ("Config file not found at " ++ env.cwd ++
                 "/sam-3d-objects/checkpoints/hf/pipeline.yaml"),
         none, [.loadModelCall])
    else
      (.error "Could not import SAM3D Inference module.", none, [.loadModelCall])

/-- `handler.py` lines 106-109, identical to `app.py`'s lines 106-109. -/
def rgbOf (env : Env) (img : PImage) : Except String PImage :=
  if img.mode ≠ "RGB" then env.convert img else .ok img

/-- `handler.py` line 111, identical to `app.py`'s line 111. -/
def imageNp (img : PImage) : Arr3 :=
  img.data.map (fun r => r.map (fun px => px.map (fun v => v % 256)))

/-- `handler.py` line 116, identical to `app.py`'s line 117. -/
def lastBand (img : PImage) : List (List Nat) :=
  img.data.map (fun r => r.map (fun px => px.getLastD 0))

/-- `handler.py` line 117, identical to `app.py`'s line 118. -/
def maskNp (rembg_output : PImage) : Mask2 :=
  (lastBand rembg_output).map (fun r => r.map (fun v => decide (0 < v)))

/-- `handler.py` line 123: `f"output_{run_id}.ply"`. -/
def plyName (run_id : String) : String :=
  "output_" ++ run_id ++ ".ply"

/-- `handler.py` line 124: `os.path.abspath(output_ply_name)`. -/
def plyPath (env : Env) (run_id : String) : String :=
  env.cwd ++ "/" ++ plyName run_id

/-- A job as the serverless platform delivers it: its `input` object. -/
structure Job where
  input : JsonObj
deriving DecidableEq

/-- The error message of `handler.py` line 93. -/
def noImageMsg : String :=
  "No image provided in input. Expecting json: \x7b\x27image\x27: \x27base64str\x27\x7d"

/-- The body of the `try` block of `handler.py`'s `handler` (lines 95-141):
load the model, base64-decode and open the input image, run the same
pipeline as the demo, save the PLY file, read it back, base64-encode it,
remove the temporary file, and return the `ply`/`filename` object. -/
def tryBody (env : Env) (st : Option Model) (fs : FS) (run_id : String)
    (imageB64 : String) :
    Except String JsonObj × Option Model × FS × List Event :=
  match load_model env st with
  | (.error e, st1, tr) => (.error e, st1, fs, tr)
  | (.ok current_model, st1, tr) =>
    match b64decode imageB64 with
    | none => (.error "Invalid base64-encoded string", st1, fs, tr)
    | some image_data =>
      match env.imageOpen image_data with
      | .error e => (.error e, st1, fs, tr)
      | .ok input_image =>
        match rgbOf env input_image with
        | .error e => (.error e, st1, fs, tr)
        | .ok input_image_rgb =>
          match env.rembgRemove input_image_rgb with
          | .error e => (.error e, st1, fs, tr ++ [.rembgCall input_image_rgb])
          | .ok rembg_output =>
            match env.inferCall current_model (imageNp input_image_rgb)
                (maskNp rembg_output) 42 with
            | .error e =>
              (.error e, st1, fs,
               tr ++ [.rembgCall input_image_rgb,
                      .inferCall (imageNp input_image_rgb) (maskNp rembg_output) 42])
            | .ok output =>
              match env.savePly output with
              | .error e =>
                (.error e, st1, fs,
                 tr ++ [.rembgCall input_image_rgb,
                        .inferCall (imageNp input_image_rgb) (maskNp rembg_output) 42,
                        .savePlyCall output])
              | .ok plyBytes =>
                let fs1 := fsWrite fs (plyPath env run_id) plyBytes
                match fsRead fs1 (plyPath env run_id) with
                | .error e =>
                  (.error e, st1, fs1,
                   tr ++ [.rembgCall input_image_rgb,
                          .inferCall (imageNp input_image_rgb) (maskNp rembg_output) 42,
                          .savePlyCall output])
                | .ok ply_content =>
                  let fs2 := if fsExists fs1 (plyPath env run_id) then
                               fsRemove fs1 (plyPath env run_id)
                             else fs1
                  (.ok [("ply", b64encode ply_content),
                        ("filename", plyName run_id)],
                   st1, fs2,
                   tr ++ [.rembgCall input_image_rgb,
                          .inferCall (imageNp input_image_rgb) (maskNp rembg_output) 42,
                          .savePlyCall output])

/-- `handler.py`'s `handler` (lines 87-146): reject a job whose input has
no `image` key before doing anything else; otherwise run the `try` body,
turning any exception into an `error` object. -/
def handler (env : Env) (st : Option Model) (fs : FS) (run_id : String)
    (job : Job) : JsonObj × Option Model × FS × List Event :=
  match job.input.lookup "image" with
  | none => ([("error", noImageMsg)], st, fs, [])
  | some imageB64 =>
    match tryBody env st fs run_id imageB64 with
    | (.ok obj, st1, fs1, tr) => (obj, st1, fs1, tr)
    | (.error e, st1, fs1, tr) => ([("error", e)], st1, fs1, tr)

end Handler

/-! ### Concrete fixtures used by the witnesses -/

/-- A small concrete RGB image. -/
def testImg : PImage :=
  ⟨"RGB", [[[1, 2, 3], [255, 0, 7]]]⟩

/-- A small concrete RGBA image standing for a `rembg` output. -/
def testRGBA : PImage :=
  ⟨"RGBA", [[[1, 2, 3, 4], [5, 6, 7, 0]]]⟩

/-- A concrete environment in which every external collaborator succeeds. -/
def testEnv : Env where
  inferenceAvailable := true
  configExists := true
  mkModel := .ok 0
  cwd := "/tmp"
  convert := fun img => .ok ⟨"RGB", img.data⟩
  rembgRemove := fun _ => .ok testRGBA
  inferCall := fun _ _ _ _ => .ok 7
  savePly := fun _ => .ok [80, 108, 200]
  imageOpen := fun _ => .ok testImg

/-! ### Base64 lemmas -/

/-- Looking up the character of a 6-bit group recovers the group. -/
theorem b64index_b64char : ∀ i : Fin 64, b64index (b64char i.val) = some i.val := by
  decide

/-- No alphabet character is the padding character. -/
theorem b64char_ne_pad : ∀ i : Fin 64, b64char i.val ≠ '=' := by
  decide

/-- Decoding an encoded byte list recovers the bytes reduced mod 256. -/
theorem b64_roundtrip :
    ∀ bs : Bytes, b64decodeChars (b64encodeBytes bs) = some (bs.map (fun b => b % 256))
  | [] => rfl
  | [a] => by
    have h1 := b64index_b64char ⟨a % 256 / 4, by omega⟩
    have h2 := b64index_b64char ⟨a % 256 % 4 * 16, by omega⟩
    simp only [b64encodeBytes, b64decodeChars, h1, h2]
    simp
    omega
  | [a, b] => by
    have h1 := b64index_b64char ⟨a % 256 / 4, by omega⟩
    have h2 := b64index_b64char ⟨a % 256 % 4 * 16 + b % 256 / 16, by omega⟩
    have h3 := b64index_b64char ⟨b % 256 % 16 * 4, by omega⟩
    have hne := b64char_ne_pad ⟨b % 256 % 16 * 4, by omega⟩
    simp only [b64encodeBytes, b64decodeChars, h1, h2, h3, if_neg hne]
    simp
    omega
  | a :: b :: c :: rest => by
    have h1 := b64index_b64char ⟨a % 256 / 4, by omega⟩
    have h2 := b64index_b64char ⟨a % 256 % 4 * 16 + b % 256 / 16, by omega⟩
    have h3 := b64index_b64char ⟨b % 256 % 16 * 4 + c % 256 / 64, by omega⟩
    have h4 := b64index_b64char ⟨c % 256 % 64, by omega⟩
    have hne3 := b64char_ne_pad ⟨b % 256 % 16 * 4 + c % 256 / 64, by omega⟩
    have hne4 := b64char_ne_pad ⟨c % 256 % 64, by omega⟩
    have ih := b64_roundtrip rest
    simp only [b64encodeBytes, b64decodeChars, h1, h2, h3, h4, if_neg hne3,
      if_neg hne4, ih]
    simp
    omega

/-- Decoding an encoded byte-valued list recovers it exactly. -/
theorem b64decode_b64encode (bs : Bytes) (h : ByteOK bs) :
    b64decode (b64encode bs) = some bs := by
  have : b64decode (b64encode bs) = b64decodeChars (b64encodeBytes bs) := rfl
  rw [this, b64_roundtrip]
  congr 1
  calc bs.map (fun b => b % 256) = bs.map id := by
        exact List.map_congr_left (fun b hb => Nat.mod_eq_of_lt (h b hb))
    _ = bs := List.map_id bs

/-! ### Filesystem lemmas -/

/-- Reading a freshly written file yields the written bytes. -/
theorem fsRead_fsWrite (fs : FS) (p : String) (b : Bytes) :
    fsRead (fsWrite fs p b) p = .ok b := by
  simp [fsRead, fsWrite, List.lookup]

/-- A freshly written file exists. -/
theorem fsExists_fsWrite (fs : FS) (p : String) (b : Bytes) :
    fsExists (fsWrite fs p b) p = true := by
  simp [fsExists, fsWrite, List.lookup]

/-- Looking up a path among entries filtered away finds nothing. -/
theorem lookup_filter_ne (fs : FS) (p : String) :
    (fs.filter (fun e => e.1 != p)).lookup p = none := by
  induction fs with
  | nil => rfl
  | cons e fs ih =>
    by_cases h : e.1 = p
    · simp [List.filter, h, ih]
    · simp only [List.filter]
      have he : (e.1 != p) = true := by simpa using h
      rw [he]
      simp only [List.lookup]
      have hpe : (p == e.1) = false := by
        simp [beq_iff_eq]
        exact fun hc => h hc.symm
      rw [hpe]
      exact ih

/-- A removed file no longer exists. -/
theorem fsExists_fsRemove (fs : FS) (p : String) :
    fsExists (fsRemove fs p) p = false := by
  simp [fsExists, fsRemove, lookup_filter_ne]

/-- Removing a freshly written file restores the filesystem minus that path. -/
theorem fsRemove_fsWrite (fs : FS) (p : String) (b : Bytes) :
    fsRemove (fsWrite fs p b) p = fs.filter (fun e => e.1 != p) := by
  simp only [fsRemove, fsWrite, List.filter]
  have hp : (p != p) = false := by simp
  rw [hp]
  rw [List.filter_filter]
  simp

/-! ### Pixel-level lemmas -/

/-- The last band of a 4-band pixel is band 3. -/
theorem getLastD_of_length_four (px : List Nat) (h : px.length = 4) :
    px.getLastD 0 = px.getD 3 0 := by
  rcases px with _ | ⟨a, _ | ⟨b, _ | ⟨c, _ | ⟨d, _ | ⟨e, tl⟩⟩⟩⟩⟩ <;>
    simp_all [List.getLastD]

/-- Every value in the uint8 image array of the demo is a byte value. -/
theorem App_imageNp_lt_256 (img : PImage) :
    ∀ row ∈ App.imageNp img, ∀ px ∈ row, ∀ v ∈ px, v < 256 := by
  intro row hrow px hpx v hv
  simp only [App.imageNp, List.mem_map] at hrow
  obtain ⟨r0, _, hr0⟩ := hrow
  subst hr0
  simp only [List.mem_map] at hpx
  obtain ⟨p0, _, hp0⟩ := hpx
  subst hp0
  simp only [List.mem_map] at hv
  obtain ⟨v0, _, hv0⟩ := hv
  omega

/-! ### `load_model` lemmas -/

/-- The two files declare the same `load_model`. -/
theorem load_model_same : Handler.load_model = App.load_model := rfl

/-- The loader's trace only records the loader call and, possibly, the one
model construction. -/
theorem App_load_model_trace (env : Env) (st : Option Model) :
    ∀ ev ∈ (App.load_model env st).2.2,
      ev = Event.loadModelCall ∨ ev = Event.constructModel := by
  intro ev hev
  rcases st with _ | m
  · simp only [App.load_model] at hev
    rcases h1 : env.inferenceAvailable with _ | _ <;>
      rcases h2 : env.configExists with _ | _ <;>
        simp only [h1, h2, if_true, if_false] at hev
    · simp_all
    · simp_all
    · simp_all
    · rcases h3 : env.mkModel with e | m <;> simp_all
  · simp_all [App.load_model]

/-! ### Success characterizations of the two request bodies -/

/-- A successful run of the demo's `try` body factors into one model load,
one RGB conversion, one background removal, one inference call with seed
42, and one save, in that order. -/
theorem App_tryBody_ok_elim (env : Env) (st : Option Model) (fs : FS) (rid : String)
    (img : PImage) (p : String) (st1 : Option Model) (fs1 : FS) (tr : List Event)
    (h : App.tryBody env st fs rid img = (.ok p, st1, fs1, tr)) :
    ∃ m trL rgb rout output plyBytes,
      App.load_model env st = (.ok m, st1, trL) ∧
      App.rgbOf env img = .ok rgb ∧
      env.rembgRemove rgb = .ok rout ∧
      env.inferCall m (App.imageNp rgb) (App.maskNp rout) 42 = .ok output ∧
      env.savePly output = .ok plyBytes ∧
      p = App.plyPath env rid ∧
      fs1 = fsWrite fs (App.plyPath env rid) plyBytes ∧
      tr = trL ++ [.rembgCall rgb,
                   .inferCall (App.imageNp rgb) (App.maskNp rout) 42,
                   .savePlyCall output] := by
  rcases hL : App.load_model env st with ⟨res, stL, trL⟩
  rcases res with e | m
  · rw [show App.tryBody env st fs rid img = (.error e, stL, fs, trL) from by
      simp [App.tryBody, hL]] at h
    simp at h
  rcases hR : App.rgbOf env img with e | rgb
  · rw [show App.tryBody env st fs rid img = (.error e, stL, fs, trL) from by
      simp [App.tryBody, hL, hR]] at h
    simp at h
  rcases hB : env.rembgRemove rgb with e | rout
  · rw [show App.tryBody env st fs rid img =
        (.error e, stL, fs, trL ++ [.rembgCall rgb]) from by
      simp [App.tryBody, hL, hR, hB]] at h
    simp at h
  rcases hI : env.inferCall m (App.imageNp rgb) (App.maskNp rout) 42 with e | output
  · rw [show App.tryBody env st fs rid img =
        (.error e, stL, fs,
         trL ++ [.rembgCall rgb,
                 .inferCall (App.imageNp rgb) (App.maskNp rout) 42]) from by
      simp [App.tryBody, hL, hR, hB, hI]] at h
    simp at h
  rcases hS : env.savePly output with e | plyBytes
  · rw [show App.tryBody env st fs rid img =
        (.error e, stL, fs,
         trL ++ [.rembgCall rgb,
                 .inferCall (App.imageNp rgb) (App.maskNp rout) 42,
                 .savePlyCall output]) from by
      simp [App.tryBody, hL, hR, hB, hI, hS]] at h
    simp at h
  rw [show App.tryBody env st fs rid img =
      (.ok (App.plyPath env rid), stL, fsWrite fs (App.plyPath env rid) plyBytes,
       trL ++ [.rembgCall rgb,
               .inferCall (App.imageNp rgb) (App.maskNp rout) 42,
               .savePlyCall output]) from by
    simp [App.tryBody, hL, hR, hB, hI, hS]] at h
  simp only [Prod.mk.injEq, Except.ok.injEq] at h
  obtain ⟨h1, h2, h3, h4⟩ := h
  subst h1 h2 h3 h4
  exact ⟨m, trL, rgb, rout, output, plyBytes, rfl, rfl, hB, hI, hS, rfl, rfl, rfl⟩

/-- A successful run of the serverless handler's `try` body factors into
one model load, one input decode, one RGB conversion, one background
removal, one inference call with seed 42, one save, one read-back, and the
cleanup, in that order. -/
theorem Handler_tryBody_ok_elim (env : Env) (st : Option Model) (fs : FS) (rid : String)
    (s : String) (obj : JsonObj) (st1 : Option Model) (fs1 : FS) (tr : List Event)
    (h : Handler.tryBody env st fs rid s = (.ok obj, st1, fs1, tr)) :
    ∃ m trL image_data input_image rgb rout output plyBytes,
      Handler.load_model env st = (.ok m, st1, trL) ∧
      b64decode s = some image_data ∧
      env.imageOpen image_data = .ok input_image ∧
      Handler.rgbOf env input_image = .ok rgb ∧
      env.rembgRemove rgb = .ok rout ∧
      env.inferCall m (Handler.imageNp rgb) (Handler.maskNp rout) 42 = .ok output ∧
      env.savePly output = .ok plyBytes ∧
      obj = [("ply", b64encode plyBytes), ("filename", Handler.plyName rid)] ∧
      fs1 = fsRemove (fsWrite fs (Handler.plyPath env rid) plyBytes)
              (Handler.plyPath env rid) ∧
      tr = trL ++ [.rembgCall rgb,
                   .inferCall (Handler.imageNp rgb) (Handler.maskNp rout) 42,
                   .savePlyCall output] := by
  rcases hL : Handler.load_model env st with ⟨res, stL, trL⟩
  rcases res with e | m
  · rw [show Handler.tryBody env st fs rid s = (.error e, stL, fs, trL) from by
      simp [Handler.tryBody, hL]] at h
    simp at h
  rcases hD : b64decode s with _ | image_data
  · rw [show Handler.tryBody env st fs rid s =
        (.error "Invalid base64-encoded string", stL, fs, trL) from by
      simp [Handler.tryBody, hL, hD]] at h
    simp at h
  rcases hO : env.imageOpen image_data with e | input_image
  · rw [show Handler.tryBody env st fs rid s = (.error e, stL, fs, trL) from by
      simp [Handler.tryBody, hL, hD, hO]] at h
    simp at h
  rcases hR : Handler.rgbOf env input_image with e | rgb
  · rw [show Handler.tryBody env st fs rid s = (.error e, stL, fs, trL) from by
      simp [Handler.tryBody, hL, hD, hO, hR]] at h
    simp at h
  rcases hB : env.rembgRemove rgb with e | rout
  · rw [show Handler.tryBody env st fs rid s =
        (.error e, stL, fs, trL ++ [.rembgCall rgb]) from by
      simp [Handler.tryBody, hL, hD, hO, hR, hB]] at h
    simp at h
  rcases hI : env.inferCall m (Handler.imageNp rgb) (Handler.maskNp rout) 42
    with e | output
  · rw [show Handler.tryBody env st fs rid s =
        (.error e, stL, fs,
         trL ++ [.rembgCall rgb,
                 .inferCall (Handler.imageNp rgb) (Handler.maskNp rout) 42]) from by
      simp [Handler.tryBody, hL, hD, hO, hR, hB, hI]] at h
    simp at h
  rcases hS : env.savePly output with e | plyBytes
  · rw [show Handler.tryBody env st fs rid s =
        (.error e, stL, fs,
         trL ++ [.rembgCall rgb,
                 .inferCall (Handler.imageNp rgb) (Handler.maskNp rout) 42,
                 .savePlyCall output]) from by
      simp [Handler.tryBody, hL, hD, hO, hR, hB, hI, hS]] at h
    simp at h
  rw [show Handler.tryBody env st fs rid s =
      (.ok [("ply", b64encode plyBytes), ("filename", Handler.plyName rid)], stL,
       fsRemove (fsWrite fs (Handler.plyPath env rid) plyBytes)
         (Handler.plyPath env rid),
       trL ++ [.rembgCall rgb,
               .inferCall (Handler.imageNp rgb) (Handler.maskNp rout) 42,
               .savePlyCall output]) from by
    simp [Handler.tryBody, hL, hD, hO, hR, hB, hI, hS, fsRead_fsWrite,
      fsExists_fsWrite]] at h
  simp only [Prod.mk.injEq, Except.ok.injEq] at h
  obtain ⟨h1, h2, h3, h4⟩ := h
  subst h1 h2 h3 h4
  exact ⟨m, trL, image_data, input_image, rgb, rout, output, plyBytes,
    rfl, rfl, hO, hR, hB, hI, hS, rfl, rfl, rfl⟩

/-! ### Transport between the two entry points -/

/-- When the handler's input decodes to the demo's input image, any error
of the demo's body is also the handler's body's error, with the same final
state, filesystem and trace. -/
theorem Handler_tryBody_err_transport (env : Env) (st : Option Model) (fs : FS)
    (rid s : String) (img : PImage) (bytes : Bytes)
    (hD : b64decode s = some bytes) (hO : env.imageOpen bytes = .ok img)
    (e : String) (st1 : Option Model) (fs1 : FS) (tr : List Event)
    (hA : App.tryBody env st fs rid img = (.error e, st1, fs1, tr)) :
    Handler.tryBody env st fs rid s = (.error e, st1, fs1, tr) := by
  rcases hL : App.load_model env st with ⟨res, stL, trL⟩
  have hL2 : Handler.load_model env st = (res, stL, trL) := hL
  rcases res with e0 | m
  · rw [show App.tryBody env st fs rid img = (.error e0, stL, fs, trL) from by
      simp [App.tryBody, hL]] at hA
    rw [show Handler.tryBody env st fs rid s = (.error e0, stL, fs, trL) from by
      simp [Handler.tryBody, hL2]]
    simp only [Prod.mk.injEq, Except.error.injEq] at hA ⊢
    exact hA
  rcases hR : App.rgbOf env img with e0 | rgb
  all_goals have hR2 : Handler.rgbOf env img = App.rgbOf env img := rfl
  · rw [show App.tryBody env st fs rid img = (.error e0, stL, fs, trL) from by
      simp [App.tryBody, hL, hR]] at hA
    rw [show Handler.tryBody env st fs rid s = (.error e0, stL, fs, trL) from by
      simp [Handler.tryBody, hL2, hD, hO, hR2, hR]]
    simp only [Prod.mk.injEq, Except.error.injEq] at hA ⊢
    exact hA
  rcases hB : env.rembgRemove rgb with e0 | rout
  · rw [show App.tryBody env st fs rid img =
        (.error e0, stL, fs, trL ++ [.rembgCall rgb]) from by
      simp [App.tryBody, hL, hR, hB]] at hA
    rw [show Handler.tryBody env st fs rid s =
        (.error e0, stL, fs, trL ++ [.rembgCall rgb]) from by
      simp [Handler.tryBody, hL2, hD, hO, hR2, hR, hB]]
    simp only [Prod.mk.injEq, Except.error.injEq] at hA ⊢
    exact hA
  rcases hI : env.inferCall m (App.imageNp rgb) (App.maskNp rout) 42 with e0 | output
  all_goals have hI2 : env.inferCall m (Handler.imageNp rgb) (Handler.maskNp rout) 42 =
    env.inferCall m (App.imageNp rgb) (App.maskNp rout) 42 := rfl
  · rw [show App.tryBody env st fs rid img =
        (.error e0, stL, fs,
         trL ++ [.rembgCall rgb,
                 .inferCall (App.imageNp rgb) (App.maskNp rout) 42]) from by
      simp [App.tryBody, hL, hR, hB, hI]] at hA
    rw [show Handler.tryBody env st fs rid s =
        (.error e0, stL, fs,
         trL ++ [.rembgCall rgb,
                 .inferCall (App.imageNp rgb) (App.maskNp rout) 42]) from by
      simp [Handler.tryBody, hL2, hD, hO, hR2, hR, hB, hI2, hI]
      constructor <;> rfl]
    simp only [Prod.mk.injEq, Except.error.injEq] at hA ⊢
    exact hA
  rcases hS : env.savePly output with e0 | plyBytes
  · rw [show App.tryBody env st fs rid img =
        (.error e0, stL, fs,
         trL ++ [.rembgCall rgb,
                 .inferCall (App.imageNp rgb) (App.maskNp rout) 42,
                 .savePlyCall output]) from by
      simp [App.tryBody, hL, hR, hB, hI, hS]] at hA
    rw [show Handler.tryBody env st fs rid s =
        (.error e0, stL, fs,
         trL ++ [.rembgCall rgb,
                 .inferCall (App.imageNp rgb) (App.maskNp rout) 42,
                 .savePlyCall output]) from by
      simp [Handler.tryBody, hL2, hD, hO, hR2, hR, hB, hI2, hI, hS]
      constructor <;> rfl]
    simp only [Prod.mk.injEq, Except.error.injEq] at hA ⊢
    exact hA
  · rw [show App.tryBody env st fs rid img =
        (.ok (App.plyPath env rid), stL, fsWrite fs (App.plyPath env rid) plyBytes,
         trL ++ [.rembgCall rgb,
                 .inferCall (App.imageNp rgb) (App.maskNp rout) 42,
                 .savePlyCall output]) from by
      simp [App.tryBody, hL, hR, hB, hI, hS]] at hA
    simp at hA

/-- When the handler's input decodes to the demo's input image, a success
of the demo's body determines the handler's body: the handler returns the
base64 encoding of exactly the bytes the demo saved, under the same
filename, removes the file, and produces the same final state and trace. -/
theorem Handler_tryBody_ok_transport (env : Env) (st : Option Model) (fs : FS)
    (rid s : String) (img : PImage) (bytes : Bytes)
    (hD : b64decode s = some bytes) (hO : env.imageOpen bytes = .ok img)
    (p : String) (st1 : Option Model) (fs1 : FS) (tr : List Event)
    (hA : App.tryBody env st fs rid img = (.ok p, st1, fs1, tr)) :
    ∃ B, fsRead fs1 p = .ok B ∧
      Handler.tryBody env st fs rid s =
        (.ok [("ply", b64encode B), ("filename", Handler.plyName rid)],
         st1, fsRemove fs1 p, tr) := by
  obtain ⟨m, trL, rgb, rout, output, plyBytes, hL, hR, hB, hI, hS, hp, hfs, htr⟩ :=
    App_tryBody_ok_elim env st fs rid img p st1 fs1 tr hA
  subst hp hfs htr
  refine ⟨plyBytes, fsRead_fsWrite fs (App.plyPath env rid) plyBytes, ?_⟩
  have hL2 : Handler.load_model env st = (.ok m, st1, trL) := hL
  have hR2 : Handler.rgbOf env img = .ok rgb := hR
  have hI2 : env.inferCall m (Handler.imageNp rgb) (Handler.maskNp rout) 42 =
      .ok output := hI
  simp [Handler.tryBody, hL2, hD, hO, hR2, hB, hI2, hS, fsRead_fsWrite,
    fsExists_fsWrite]
  refine ⟨rfl, rfl, ?_⟩
  constructor

/-! ### Trace lemmas -/

/-- An event is an inference call. -/
def isInferEvent : Event → Bool
  | .inferCall _ _ _ => true
  | _ => false

/-- An event is an output serialization. -/
def isSaveEvent : Event → Bool
  | .savePlyCall _ => true
  | _ => false

/-- The loader's trace holds no inference or serialization events. -/
theorem App_load_model_filter (env : Env) (st : Option Model) :
    (App.load_model env st).2.2.filter isInferEvent = [] ∧
    (App.load_model env st).2.2.filter isSaveEvent = [] := by
  constructor <;>
    rw [List.filter_eq_nil_iff] <;>
    intro ev hev <;>
    rcases App_load_model_trace env st ev hev with h | h <;>
    simp [h, isInferEvent, isSaveEvent]

/-- The demo's request trace equals its `try` body's trace. -/
theorem App_process_trace (env : Env) (st : Option Model) (fs : FS)
    (rid : String) (img : PImage) :
    (App.process env st fs rid (some img)).2.2.2 =
      (App.tryBody env st fs rid img).2.2.2 := by
  rcases hT : App.tryBody env st fs rid img with ⟨res, st1, fs1, tr⟩
  rcases res with e | p <;> simp [App.process, hT]

/-- The handler's trace equals its `try` body's trace when the job has an
image. -/
theorem Handler_handler_trace (env : Env) (st : Option Model) (fs : FS)
    (rid : String) (job : Handler.Job) (s : String)
    (hs : job.input.lookup "image" = some s) :
    (Handler.handler env st fs rid job).2.2.2 =
      (Handler.tryBody env st fs rid s).2.2.2 := by
  rcases hT : Handler.tryBody env st fs rid s with ⟨res, st1, fs1, tr⟩
  rcases res with e | obj <;> simp [Handler.handler, hs, hT]

/-- Any inference event in the demo's body trace carries the uint8 array of
the converted image and the mask of the background-remover output, with
seed 42. -/
theorem App_tryBody_infer_trace (env : Env) (st : Option Model) (fs : FS)
    (rid : String) (img : PImage) (image : Arr3) (mask : Mask2) (seed : Nat)
    (h : Event.inferCall image mask seed ∈ (App.tryBody env st fs rid img).2.2.2) :
    ∃ rgb rout,
      App.rgbOf env img = .ok rgb ∧ env.rembgRemove rgb = .ok rout ∧
      image = App.imageNp rgb ∧ mask = App.maskNp rout ∧ seed = 42 := by
  have hnotL : Event.inferCall image mask seed ∉ (App.load_model env st).2.2 := by
    intro hmem
    rcases App_load_model_trace env st _ hmem with h' | h' <;> simp at h'
  rcases hL : App.load_model env st with ⟨res, stL, trL⟩
  rw [hL] at hnotL
  rcases res with e | m
  · rw [show App.tryBody env st fs rid img = (.error e, stL, fs, trL) from by
      simp [App.tryBody, hL]] at h
    exact absurd h hnotL
  rcases hR : App.rgbOf env img with e | rgb
  · rw [show App.tryBody env st fs rid img = (.error e, stL, fs, trL) from by
      simp [App.tryBody, hL, hR]] at h
    exact absurd h hnotL
  rcases hB : env.rembgRemove rgb with e | rout
  · rw [show App.tryBody env st fs rid img =
        (.error e, stL, fs, trL ++ [.rembgCall rgb]) from by
      simp [App.tryBody, hL, hR, hB]] at h
    rcases List.mem_append.mp h with h' | h'
    · exact absurd h' hnotL
    · simp at h'
  rcases hI : env.inferCall m (App.imageNp rgb) (App.maskNp rout) 42 with e | output
  · rw [show App.tryBody env st fs rid img =
        (.error e, stL, fs,
         trL ++ [.rembgCall rgb,
                 .inferCall (App.imageNp rgb) (App.maskNp rout) 42]) from by
      simp [App.tryBody, hL, hR, hB, hI]] at h
    rcases List.mem_append.mp h with h' | h'
    · exact absurd h' hnotL
    · simp at h'
      obtain ⟨h1, h2, h3⟩ := h'
      exact ⟨rgb, rout, rfl, hB, h1, h2, h3⟩
  rcases hS : env.savePly output with e | plyBytes
  · rw [show App.tryBody env st fs rid img =
        (.error e, stL, fs,
         trL ++ [.rembgCall rgb,
                 .inferCall (App.imageNp rgb) (App.maskNp rout) 42,
                 .savePlyCall output]) from by
      simp [App.tryBody, hL, hR, hB, hI, hS]] at h
    rcases List.mem_append.mp h with h' | h'
    · exact absurd h' hnotL
    · simp at h'
      obtain ⟨h1, h2, h3⟩ := h'
      exact ⟨rgb, rout, rfl, hB, h1, h2, h3⟩
  · rw [show App.tryBody env st fs rid img =
        (.ok (App.plyPath env rid), stL, fsWrite fs (App.plyPath env rid) plyBytes,
         trL ++ [.rembgCall rgb,
                 .inferCall (App.imageNp rgb) (App.maskNp rout) 42,
                 .savePlyCall output]) from by
      simp [App.tryBody, hL, hR, hB, hI, hS]] at h
    rcases List.mem_append.mp h with h' | h'
    · exact absurd h' hnotL
    · simp at h'
      obtain ⟨h1, h2, h3⟩ := h'
      exact ⟨rgb, rout, rfl, hB, h1, h2, h3⟩

/-- Any background-removal event in the demo's body trace carries the
converted input image. -/
theorem App_tryBody_rembg_trace (env : Env) (st : Option Model) (fs : FS)
    (rid : String) (img : PImage) (r : PImage)
    (h : Event.rembgCall r ∈ (App.tryBody env st fs rid img).2.2.2) :
    App.rgbOf env img = .ok r := by
  have hnotL : Event.rembgCall r ∉ (App.load_model env st).2.2 := by
    intro hmem
    rcases App_load_model_trace env st _ hmem with h' | h' <;> simp at h'
  rcases hL : App.load_model env st with ⟨res, stL, trL⟩
  rw [hL] at hnotL
  rcases res with e | m
  · rw [show App.tryBody env st fs rid img = (.error e, stL, fs, trL) from by
      simp [App.tryBody, hL]] at h
    exact absurd h hnotL
  rcases hR : App.rgbOf env img with e | rgb
  · rw [show App.tryBody env st fs rid img = (.error e, stL, fs, trL) from by
      simp [App.tryBody, hL, hR]] at h
    exact absurd h hnotL
  rcases hB : env.rembgRemove rgb with e | rout
  · rw [show App.tryBody env st fs rid img =
        (.error e, stL, fs, trL ++ [.rembgCall rgb]) from by
      simp [App.tryBody, hL, hR, hB]] at h
    rcases List.mem_append.mp h with h' | h'
    · exact absurd h' hnotL
    · simp at h'
      rw [h']
  rcases hI : env.inferCall m (App.imageNp rgb) (App.maskNp rout) 42 with e | output
  · rw [show App.tryBody env st fs rid img =
        (.error e, stL, fs,
         trL ++ [.rembgCall rgb,
                 .inferCall (App.imageNp rgb) (App.maskNp rout) 42]) from by
      simp [App.tryBody, hL, hR, hB, hI]] at h
    rcases List.mem_append.mp h with h' | h'
    · exact absurd h' hnotL
    · simp at h'
      rw [h']
  rcases hS : env.savePly output with e | plyBytes
  · rw [show App.tryBody env st fs rid img =
        (.error e, stL, fs,
         trL ++ [.rembgCall rgb,
                 .inferCall (App.imageNp rgb) (App.maskNp rout) 42,
                 .savePlyCall output]) from by
      simp [App.tryBody, hL, hR, hB, hI, hS]] at h
    rcases List.mem_append.mp h with h' | h'
    · exact absurd h' hnotL
    · simp at h'
      rw [h']
  · rw [show App.tryBody env st fs rid img =
        (.ok (App.plyPath env rid), stL, fsWrite fs (App.plyPath env rid) plyBytes,
         trL ++ [.rembgCall rgb,
                 .inferCall (App.imageNp rgb) (App.maskNp rout) 42,
                 .savePlyCall output]) from by
      simp [App.tryBody, hL, hR, hB, hI, hS]] at h
    rcases List.mem_append.mp h with h' | h'
    · exact absurd h' hnotL
    · simp at h'
      rw [h']

/-- Any inference event in the handler's body trace carries the uint8 array
of the converted decoded image and the mask of the background-remover
output, with seed 42. -/
theorem Handler_tryBody_infer_trace (env : Env) (st : Option Model) (fs : FS)
    (rid s : String) (image : Arr3) (mask : Mask2) (seed : Nat)
    (h : Event.inferCall image mask seed ∈ (Handler.tryBody env st fs rid s).2.2.2) :
    ∃ bytes input_image rgb rout,
      b64decode s = some bytes ∧ env.imageOpen bytes = .ok input_image ∧
      Handler.rgbOf env input_image = .ok rgb ∧ env.rembgRemove rgb = .ok rout ∧
      image = Handler.imageNp rgb ∧ mask = Handler.maskNp rout ∧ seed = 42 := by
  have hnotL : Event.inferCall image mask seed ∉ (Handler.load_model env st).2.2 := by
    intro hmem
    rcases App_load_model_trace env st _ hmem with h' | h' <;> simp at h'
  rcases hL : Handler.load_model env st with ⟨res, stL, trL⟩
  rw [hL] at hnotL
  rcases res with e | m
  · rw [show Handler.tryBody env st fs rid s = (.error e, stL, fs, trL) from by
      simp [Handler.tryBody, hL]] at h
    exact absurd h hnotL
  rcases hD : b64decode s with _ | bytes
  · rw [show Handler.tryBody env st fs rid s =
        (.error "Invalid base64-encoded string", stL, fs, trL) from by
      simp [Handler.tryBody, hL, hD]] at h
    exact absurd h hnotL
  rcases hO : env.imageOpen bytes with e | input_image
  · rw [show Handler.tryBody env st fs rid s = (.error e, stL, fs, trL) from by
      simp [Handler.tryBody, hL, hD, hO]] at h
    exact absurd h hnotL
  rcases hR : Handler.rgbOf env input_image with e | rgb
  · rw [show Handler.tryBody env st fs rid s = (.error e, stL, fs, trL) from by
      simp [Handler.tryBody, hL, hD, hO, hR]] at h
    exact absurd h hnotL
  rcases hB : env.rembgRemove rgb with e | rout
  · rw [show Handler.tryBody env st fs rid s =
        (.error e, stL, fs, trL ++ [.rembgCall rgb]) from by
      simp [Handler.tryBody, hL, hD, hO, hR, hB]] at h
    rcases List.mem_append.mp h with h' | h'
    · exact absurd h' hnotL
    · simp at h'
  rcases hI : env.inferCall m (Handler.imageNp rgb) (Handler.maskNp rout) 42
    with e | output
  · rw [show Handler.tryBody env st fs rid s =
        (.error e, stL, fs,
         trL ++ [.rembgCall rgb,
                 .inferCall (Handler.imageNp rgb) (Handler.maskNp rout) 42]) from by
      simp [Handler.tryBody, hL, hD, hO, hR, hB, hI]] at h
    rcases List.mem_append.mp h with h' | h'
    · exact absurd h' hnotL
    · simp at h'
      obtain ⟨h1, h2, h3⟩ := h'
      exact ⟨bytes, input_image, rgb, rout, rfl, hO, hR, hB, h1, h2, h3⟩
  rcases hS : env.savePly output with e | plyBytes
  · rw [show Handler.tryBody env st fs rid s =
        (.error e, stL, fs,
         trL ++ [.rembgCall rgb,
                 .inferCall (Handler.imageNp rgb) (Handler.maskNp rout) 42,
                 .savePlyCall output]) from by
      simp [Handler.tryBody, hL, hD, hO, hR, hB, hI, hS]] at h
    rcases List.mem_append.mp h with h' | h'
    · exact absurd h' hnotL
    · simp at h'
      obtain ⟨h1, h2, h3⟩ := h'
      exact ⟨bytes, input_image, rgb, rout, rfl, hO, hR, hB, h1, h2, h3⟩
  · rw [show Handler.tryBody env st fs rid s =
        (.ok [("ply", b64encode plyBytes), ("filename", Handler.plyName rid)], stL,
         fsRemove (fsWrite fs (Handler.plyPath env rid) plyBytes)
           (Handler.plyPath env rid),
         trL ++ [.rembgCall rgb,
                 .inferCall (Handler.imageNp rgb) (Handler.maskNp rout) 42,
                 .savePlyCall output]) from by
      simp [Handler.tryBody, hL, hD, hO, hR, hB, hI, hS, fsRead_fsWrite,
        fsExists_fsWrite]] at h
    rcases List.mem_append.mp h with h' | h'
    · exact absurd h' hnotL
    · simp at h'
      obtain ⟨h1, h2, h3⟩ := h'
      exact ⟨bytes, input_image, rgb, rout, rfl, hO, hR, hB, h1, h2, h3⟩

/-- Any background-removal event in the handler's body trace carries the
converted decoded image. -/
theorem Handler_tryBody_rembg_trace (env : Env) (st : Option Model) (fs : FS)
    (rid s : String) (r : PImage)
    (h : Event.rembgCall r ∈ (Handler.tryBody env st fs rid s).2.2.2) :
    ∃ bytes input_image,
      b64decode s = some bytes ∧ env.imageOpen bytes = .ok input_image ∧
      Handler.rgbOf env input_image = .ok r := by
  have hnotL : Event.rembgCall r ∉ (Handler.load_model env st).2.2 := by
    intro hmem
    rcases App_load_model_trace env st _ hmem with h' | h' <;> simp at h'
  rcases hL : Handler.load_model env st with ⟨res, stL, trL⟩
  rw [hL] at hnotL
  rcases res with e | m
  · rw [show Handler.tryBody env st fs rid s = (.error e, stL, fs, trL) from by
      simp [Handler.tryBody, hL]] at h
    exact absurd h hnotL
  rcases hD : b64decode s with _ | bytes
  · rw [show Handler.tryBody env st fs rid s =
        (.error "Invalid base64-encoded string", stL, fs, trL) from by
      simp [Handler.tryBody, hL, hD]] at h
    exact absurd h hnotL
  rcases hO : env.imageOpen bytes with e | input_image
  · rw [show Handler.tryBody env st fs rid s = (.error e, stL, fs, trL) from by
      simp [Handler.tryBody, hL, hD, hO]] at h
    exact absurd h hnotL
  rcases hR : Handler.rgbOf env input_image with e | rgb
  · rw [show Handler.tryBody env st fs rid s = (.error e, stL, fs, trL) from by
      simp [Handler.tryBody, hL, hD, hO, hR]] at h
    exact absurd h hnotL
  rcases hB : env.rembgRemove rgb with e | rout
  · rw [show Handler.tryBody env st fs rid s =
        (.error e, stL, fs, trL ++ [.rembgCall rgb]) from by
      simp [Handler.tryBody, hL, hD, hO, hR, hB]] at h
    rcases List.mem_append.mp h with h' | h'
    · exact absurd h' hnotL
    · simp at h'
      exact ⟨bytes, input_image, rfl, hO, by rw [h']; exact hR⟩
  rcases hI : env.inferCall m (Handler.imageNp rgb) (Handler.maskNp rout) 42
    with e | output
  · rw [show Handler.tryBody env st fs rid s =
        (.error e, stL, fs,
         trL ++ [.rembgCall rgb,
                 .inferCall (Handler.imageNp rgb) (Handler.maskNp rout) 42]) from by
      simp [Handler.tryBody, hL, hD, hO, hR, hB, hI]] at h
    rcases List.mem_append.mp h with h' | h'
    · exact absurd h' hnotL
    · simp at h'
      exact ⟨bytes, input_image, rfl, hO, by rw [h']; exact hR⟩
  rcases hS : env.savePly output with e | plyBytes
  · rw [show Handler.tryBody env st fs rid s =
        (.error e, stL, fs,
         trL ++ [.rembgCall rgb,
                 .inferCall (Handler.imageNp rgb) (Handler.maskNp rout) 42,
                 .savePlyCall output]) from by
      simp [Handler.tryBody, hL, hD, hO, hR, hB, hI, hS]] at h
    rcases List.mem_append.mp h with h' | h'
    · exact absurd h' hnotL
    · simp at h'
      exact ⟨bytes, input_image, rfl, hO, by rw [h']; exact hR⟩
  · rw [show Handler.tryBody env st fs rid s =
        (.ok [("ply", b64encode plyBytes), ("filename", Handler.plyName rid)], stL,
         fsRemove (fsWrite fs (Handler.plyPath env rid) plyBytes)
           (Handler.plyPath env rid),
         trL ++ [.rembgCall rgb,
                 .inferCall (Handler.imageNp rgb) (Handler.maskNp rout) 42,
                 .savePlyCall output]) from by
      simp [Handler.tryBody, hL, hD, hO, hR, hB, hI, hS, fsRead_fsWrite,
        fsExists_fsWrite]] at h
    rcases List.mem_append.mp h with h' | h'
    · exact absurd h' hnotL
    · simp at h'
      exact ⟨bytes, input_image, rfl, hO, by rw [h']; exact hR⟩

/-- A `ply`/`filename` result of the handler comes from an image-carrying
job and a successful `try` body. -/
theorem Handler_handler_ply_elim (env : Env) (st : Option Model) (fs : FS)
    (rid : String) (job : Handler.Job) (p f : String) (st1 : Option Model)
    (fs1 : FS) (tr : List Event)
    (h : Handler.handler env st fs rid job =
      ([("ply", p), ("filename", f)], st1, fs1, tr)) :
    ∃ s, job.input.lookup "image" = some s ∧
      Handler.tryBody env st fs rid s =
        (.ok [("ply", p), ("filename", f)], st1, fs1, tr) := by
  rcases hs : job.input.lookup "image" with _ | s
  · rw [show Handler.handler env st fs rid job =
        ([("error", Handler.noImageMsg)], st, fs, []) from by
      simp [Handler.handler, hs]] at h
    simp at h
  rcases hT : Handler.tryBody env st fs rid s with ⟨res, st2, fs2, tr2⟩
  rcases res with e | obj
  · rw [show Handler.handler env st fs rid job = ([("error", e)], st2, fs2, tr2) from by
      simp [Handler.handler, hs, hT]] at h
    simp at h
  · rw [show Handler.handler env st fs rid job = (obj, st2, fs2, tr2) from by
      simp [Handler.handler, hs, hT]] at h
    simp only [Prod.mk.injEq] at h
    obtain ⟨h1, h2, h3, h4⟩ := h
    subst h1 h2 h3 h4
    exact ⟨s, rfl, hT⟩

/-- A concrete environment in which the `Inference` import failed. -/
def failEnv : Env :=
  { testEnv with inferenceAvailable := false }

/-! ### The claims -/

/-- C8: calling the demo's `process` with a `None` input image returns the
pair `(None, None)` immediately: no error, unchanged model state, unchanged
filesystem, and an empty trace — so neither the model loader, nor the
background remover, nor the inference object is invoked. -/
theorem c8_none_input_noop (env : Env) (st : Option Model) (fs : FS)
    (rid : String) :
    App.process env st fs rid none = (.ok (none, none), st, fs, []) := rfl

/-- C1: for every job, the serverless handler's output object is either
`\x7b"ply": _, "filename": _\x7d` or `\x7b"error": _\x7d`; and when the job's
input has no `image` key it returns the error object at once, with an empty
trace — the model pipeline is never invoked. -/
theorem c1_handler_output_shape (env : Env) (st : Option Model) (fs : FS)
    (rid : String) (job : Handler.Job) :
    ((∃ p f, (Handler.handler env st fs rid job).1 = [("ply", p), ("filename", f)]) ∨
     (∃ e, (Handler.handler env st fs rid job).1 = [("error", e)])) ∧
    (job.input.lookup "image" = none →
      Handler.handler env st fs rid job =
        ([("error", Handler.noImageMsg)], st, fs, [])) := by
  constructor
  · rcases hs : job.input.lookup "image" with _ | s
    · exact Or.inr ⟨Handler.noImageMsg, by simp [Handler.handler, hs]⟩
    rcases hT : Handler.tryBody env st fs rid s with ⟨res, st2, fs2, tr2⟩
    rcases res with e | obj
    · exact Or.inr ⟨e, by simp [Handler.handler, hs, hT]⟩
    · obtain ⟨m, trL, bts, ii, rgb, rout, output, plyBytes, hL, hD, hO, hR, hB, hI,
        hS, hobj, hfs, htr⟩ := Handler_tryBody_ok_elim env st fs rid s obj st2 fs2 tr2 hT
      exact Or.inl ⟨b64encode plyBytes, Handler.plyName rid, by
        simp [Handler.handler, hs, hT, hobj]⟩
  · intro hnone
    simp [Handler.handler, hnone]

/-- C1 witness: a job without an `image` key gets the error object and the
model pipeline is never entered. -/
theorem c1_handler_output_shape_witness :
    Handler.handler testEnv none [] "rid" ⟨[("other", "x")]⟩ =
      ([("error", Handler.noImageMsg)], none, [], []) :=
  (c1_handler_output_shape testEnv none [] "rid" ⟨[("other", "x")]⟩).2 rfl

/-- C2: every failure of the request body is caught at the top level: an
erroring handler body yields the `error` object rather than a propagated
exception, and an erroring demo body yields the generic
`gr.Error("Error processing image: ...")` message. -/
theorem c2_top_level_catch (env : Env) (st : Option Model) (fs : FS)
    (rid s : String) (job : Handler.Job) (img : PImage) (e : String)
    (st1 : Option Model) (fs1 : FS) (tr : List Event) :
    (job.input.lookup "image" = some s →
      Handler.tryBody env st fs rid s = (.error e, st1, fs1, tr) →
      Handler.handler env st fs rid job = ([("error", e)], st1, fs1, tr)) ∧
    (App.tryBody env st fs rid img = (.error e, st1, fs1, tr) →
      App.process env st fs rid (some img) =
        (.error ("Error processing image: " ++ e), st1, fs1, tr)) := by
  constructor
  · intro hs hT
    simp [Handler.handler, hs, hT]
  · intro hT
    simp [App.process, hT]

/-- C2 witness: with the `Inference` import unavailable, both entry points
surface the raised `ImportError` in their respective top-level forms. -/
theorem c2_top_level_catch_witness :
    Handler.handler failEnv none [] "rid" ⟨[("image", "AA==")]⟩ =
      ([("error", "Could not import SAM3D Inference module.")], none, [],
       [.loadModelCall]) ∧
    App.process failEnv none [] "rid" (some testImg) =
      (.error ("Error processing image: " ++
        "Could not import SAM3D Inference module."), none, [], [.loadModelCall]) := by
  have h := c2_top_level_catch failEnv none [] "rid" "AA==" ⟨[("image", "AA==")]⟩
    testImg "Could not import SAM3D Inference module." none [] [.loadModelCall]
  exact ⟨h.1 rfl rfl, h.2 rfl⟩

/-- C4: model loading is lazy and at-most-once: both files share one
`load_model`; with the global already holding a model it is returned as is
with no construction event; and any successful load stores the model in the
global, after which a further call returns that same stored object. -/
theorem c4_load_model_lazy_once (env : Env) (m m1 : Model) (st st1 : Option Model)
    (tr : List Event) :
    Handler.load_model = App.load_model ∧
    App.load_model env (some m) = (.ok m, some m, [.loadModelCall]) ∧
    Event.constructModel ∉ (App.load_model env (some m)).2.2 ∧
    (App.load_model env st = (.ok m1, st1, tr) →
      st1 = some m1 ∧
      App.load_model env st1 = (.ok m1, some m1, [.loadModelCall])) := by
  refine ⟨rfl, rfl, by simp [App.load_model], ?_⟩
  intro h
  rcases st with _ | m2
  · rcases h1 : env.inferenceAvailable with _ | _ <;>
      rcases h2 : env.configExists with _ | _ <;>
        rcases h3 : env.mkModel with e | m3 <;>
          simp_all [App.load_model]
    obtain ⟨ha, hb, hc⟩ := h
    subst ha
    subst hb
    exact ⟨rfl, rfl⟩
  · simp_all [App.load_model]
    obtain ⟨ha, hb, hc⟩ := h
    subst ha
    subst hb
    exact ⟨rfl, rfl⟩

/-- C4 witness: loading from the empty global stores the constructed model,
and reloading returns the same stored model without reconstruction. -/
theorem c4_load_model_lazy_once_witness :
    (some 0 : Option Model) = some 0 ∧
    App.load_model testEnv (some 0) = (.ok 0, some 0, [.loadModelCall]) :=
  (c4_load_model_lazy_once testEnv 0 0 none (some 0)
    [.loadModelCall, .constructModel]).2.2.2 rfl

/-- C7: a successful demo request returns the identical absolute path of
the saved PLY file in both output positions (the 3D preview and the file
download), and the saved file is present at that path. -/
theorem c7_same_path_both_outputs (env : Env) (st : Option Model) (fs : FS)
    (rid : String) (img : PImage) (o1 o2 : Option String) (st1 : Option Model)
    (fs1 : FS) (tr : List Event)
    (h : App.process env st fs rid (some img) = (.ok (o1, o2), st1, fs1, tr)) :
    o1 = o2 ∧
    o1 = some (App.plyPath env rid) ∧
    ∃ B, fsRead fs1 (App.plyPath env rid) = .ok B := by
  rcases hT : App.tryBody env st fs rid img with ⟨res, st2, fs2, tr2⟩
  rcases res with e | p
  · rw [show App.process env st fs rid (some img) =
        (.error ("Error processing image: " ++ e), st2, fs2, tr2) from by
      simp [App.process, hT]] at h
    simp at h
  · rw [show App.process env st fs rid (some img) =
        (.ok (some p, some p), st2, fs2, tr2) from by
      simp [App.process, hT]] at h
    simp only [Prod.mk.injEq, Except.ok.injEq] at h
    obtain ⟨⟨ho1, ho2⟩, hst, hfs, htr⟩ := h
    obtain ⟨m, trL, rgb, rout, output, plyBytes, hL, hR, hB, hI, hS, hp, hfs2, htr2⟩ :=
      App_tryBody_ok_elim env st fs rid img p st2 fs2 tr2 hT
    subst hp hfs2
    refine ⟨by rw [← ho1, ← ho2], by rw [← ho1], plyBytes, ?_⟩
    rw [← hfs]
    exact fsRead_fsWrite fs (App.plyPath env rid) plyBytes

/-- C7 witness: a concrete successful run returns the same saved path twice. -/
theorem c7_same_path_both_outputs_witness :
    (some "/tmp/output_rid.ply" : Option String) = some "/tmp/output_rid.ply" ∧
    (some "/tmp/output_rid.ply" : Option String) =
      some (App.plyPath testEnv "rid") ∧
    ∃ B, fsRead (App.process testEnv none [] "rid" (some testImg)).2.2.1
      (App.plyPath testEnv "rid") = .ok B :=
  c7_same_path_both_outputs testEnv none [] "rid" testImg
    (some "/tmp/output_rid.ply") (some "/tmp/output_rid.ply") (some 0)
    [("/tmp/output_rid.ply", [80, 108, 200])]
    [.loadModelCall, .constructModel, .rembgCall testImg,
     .inferCall (App.imageNp testImg) (App.maskNp testRGBA) 42, .savePlyCall 7]
    rfl

/-- C6: a successful request in either entry point performed exactly one
inference call — on the image array and mask array with seed 42 — and
exactly one serialization of its result via the save-to-file method. -/
theorem c6_single_inference (env : Env) (st : Option Model) (fs : FS)
    (rid : String) (img : PImage) (job : Handler.Job) :
    (∀ o st1 fs1 tr, App.process env st fs rid (some img) = (.ok o, st1, fs1, tr) →
      ∃ m rgb rout output,
        env.inferCall m (App.imageNp rgb) (App.maskNp rout) 42 = .ok output ∧
        tr.filter isInferEvent =
          [.inferCall (App.imageNp rgb) (App.maskNp rout) 42] ∧
        tr.filter isSaveEvent = [.savePlyCall output]) ∧
    (∀ p f st1 fs1 tr,
      Handler.handler env st fs rid job =
        ([("ply", p), ("filename", f)], st1, fs1, tr) →
      ∃ m rgb rout output,
        env.inferCall m (Handler.imageNp rgb) (Handler.maskNp rout) 42 = .ok output ∧
        tr.filter isInferEvent =
          [.inferCall (Handler.imageNp rgb) (Handler.maskNp rout) 42] ∧
        tr.filter isSaveEvent = [.savePlyCall output]) := by
  constructor
  · intro o st1 fs1 tr h
    rcases hT : App.tryBody env st fs rid img with ⟨res, st2, fs2, tr2⟩
    rcases res with e | p
    · rw [show App.process env st fs rid (some img) =
          (.error ("Error processing image: " ++ e), st2, fs2, tr2) from by
        simp [App.process, hT]] at h
      simp at h
    · rw [show App.process env st fs rid (some img) =
          (.ok (some p, some p), st2, fs2, tr2) from by
        simp [App.process, hT]] at h
      simp only [Prod.mk.injEq, Except.ok.injEq] at h
      obtain ⟨-, -, -, htr⟩ := h
      subst htr
      obtain ⟨m, trL, rgb, rout, output, plyBytes, hL, hR, hB, hI, hS, hp, hfs2, htr2⟩ :=
        App_tryBody_ok_elim env st fs rid img p st2 fs2 tr2 hT
      subst htr2
      have hfilt := App_load_model_filter env st
      rw [hL] at hfilt
      refine ⟨m, rgb, rout, output, hI, ?_, ?_⟩
      · rw [List.filter_append, hfilt.1]
        simp [isInferEvent]
      · rw [List.filter_append, hfilt.2]
        simp [isInferEvent, isSaveEvent]
  · intro p f st1 fs1 tr h
    obtain ⟨s, hs, hT⟩ := Handler_handler_ply_elim env st fs rid job p f st1 fs1 tr h
    obtain ⟨m, trL, bts, ii, rgb, rout, output, plyBytes, hL, hD, hO, hR, hB, hI,
      hS, hobj, hfs, htr⟩ :=
      Handler_tryBody_ok_elim env st fs rid s _ st1 fs1 tr hT
    subst htr
    have hfilt := App_load_model_filter env st
    rw [show App.load_model env st = (.ok m, st1, trL) from hL] at hfilt
    refine ⟨m, rgb, rout, output, hI, ?_, ?_⟩
    · rw [List.filter_append, hfilt.1]
      simp [isInferEvent]
    · rw [List.filter_append, hfilt.2]
      simp [isInferEvent, isSaveEvent]

/-- C6 witness: the concrete successful demo run contains exactly one
inference event and one serialization event. -/
theorem c6_single_inference_witness :
    ∃ m rgb rout output,
      testEnv.inferCall m (App.imageNp rgb) (App.maskNp rout) 42 = .ok output ∧
      List.filter isInferEvent
          [Event.loadModelCall, Event.constructModel, Event.rembgCall testImg,
           Event.inferCall (App.imageNp testImg) (App.maskNp testRGBA) 42,
           Event.savePlyCall 7] =
        [Event.inferCall (App.imageNp rgb) (App.maskNp rout) 42] ∧
      List.filter isSaveEvent
          [Event.loadModelCall, Event.constructModel, Event.rembgCall testImg,
           Event.inferCall (App.imageNp testImg) (App.maskNp testRGBA) 42,
           Event.savePlyCall 7] =
        [Event.savePlyCall output] :=
  (c6_single_inference testEnv none [] "rid" testImg ⟨[]⟩).1
    (some "/tmp/output_rid.ply", some "/tmp/output_rid.ply") (some 0)
    [("/tmp/output_rid.ply", [80, 108, 200])]
    [.loadModelCall, .constructModel, .rembgCall testImg,
     .inferCall (App.imageNp testImg) (App.maskNp testRGBA) 42, .savePlyCall 7]
    rfl

/-- C9: a successful job leaves no output file behind — the temporary PLY
file is removed before returning and the filesystem keeps nothing at its
path — while the returned `ply` field base64-decodes to exactly the bytes
that were in that file and the returned `filename` is `output_<run_id>.ply`. -/
theorem c9_handler_cleanup (env : Env) (st : Option Model) (fs : FS)
    (rid : String) (job : Handler.Job) (p f : String) (st1 : Option Model)
    (fs1 : FS) (tr : List Event)
    (hBytes : ∀ o bs, env.savePly o = .ok bs → ByteOK bs)
    (h : Handler.handler env st fs rid job =
      ([("ply", p), ("filename", f)], st1, fs1, tr)) :
    f = "output_" ++ rid ++ ".ply" ∧
    fsExists fs1 (Handler.plyPath env rid) = false ∧
    fs1 = fs.filter (fun e => e.1 != Handler.plyPath env rid) ∧
    ∃ output B, env.savePly output = .ok B ∧ b64decode p = some B := by
  obtain ⟨s, hs, hT⟩ := Handler_handler_ply_elim env st fs rid job p f st1 fs1 tr h
  obtain ⟨m, trL, bts, ii, rgb, rout, output, plyBytes, hL, hD, hO, hR, hB, hI,
    hS, hobj, hfs, htr⟩ :=
    Handler_tryBody_ok_elim env st fs rid s _ st1 fs1 tr hT
  have hpf : p = b64encode plyBytes ∧ f = Handler.plyName rid := by
    have := hobj
    simp only [List.cons.injEq, Prod.mk.injEq] at this
    exact ⟨this.1.2, this.2.1.2⟩
  obtain ⟨hp, hf⟩ := hpf
  subst hfs
  refine ⟨hf, ?_, ?_, output, plyBytes, hS, ?_⟩
  · exact fsExists_fsRemove _ _
  · exact fsRemove_fsWrite fs (Handler.plyPath env rid) plyBytes
  · rw [hp]
    exact b64decode_b64encode plyBytes (hBytes output plyBytes hS)

/-- C9 witness: the concrete successful job removes its file and its `ply`
payload decodes back to the saved bytes. -/
theorem c9_handler_cleanup_witness :
    ("output_rid.ply" : String) = "output_" ++ "rid" ++ ".ply" ∧
    fsExists [] (Handler.plyPath testEnv "rid") = false ∧
    ([] : FS) = List.filter (fun e => e.1 != Handler.plyPath testEnv "rid") [] ∧
    ∃ output B, testEnv.savePly output = .ok B ∧
      b64decode (b64encode [80, 108, 200]) = some B :=
  c9_handler_cleanup testEnv none [] "rid" ⟨[("image", "AA==")]⟩
    (b64encode [80, 108, 200]) "output_rid.ply" (some 0) []
    [.loadModelCall, .constructModel, .rembgCall testImg,
     .inferCall (Handler.imageNp testImg) (Handler.maskNp testRGBA) 42,
     .savePlyCall 7]
    (by
      intro o bs hsv
      cases hsv
      intro b hb
      simp at hb
      rcases hb with h | h | h <;> omega)
    (by decide)

/-- C5: in both entry points, the mask handed to the model is the boolean
array built from the background remover's output on the converted RGB
image; that array takes the last band of the remover's output and compares
each value against 0 — for a 4-band (RGBA) output the last band is band 3,
the alpha channel. -/
theorem c5_mask_from_alpha (env : Env) (st : Option Model) (fs : FS)
    (rid s : String) (img : PImage) (job : Handler.Job) :
    (∀ image mask seed,
      Event.inferCall image mask seed ∈ (App.process env st fs rid (some img)).2.2.2 →
      ∃ rgb rout, App.rgbOf env img = .ok rgb ∧ env.rembgRemove rgb = .ok rout ∧
        mask = App.maskNp rout) ∧
    (job.input.lookup "image" = some s →
      ∀ image mask seed,
        Event.inferCall image mask seed ∈ (Handler.handler env st fs rid job).2.2.2 →
        ∃ bytes ii rgb rout,
          b64decode s = some bytes ∧ env.imageOpen bytes = .ok ii ∧
          Handler.rgbOf env ii = .ok rgb ∧ env.rembgRemove rgb = .ok rout ∧
          mask = Handler.maskNp rout) ∧
    (∀ rout : PImage, App.maskNp rout =
      rout.data.map (fun row => row.map (fun px => decide (0 < px.getLastD 0)))) ∧
    (∀ px : List Nat, px.length = 4 → px.getLastD 0 = px.getD 3 0) ∧
    Handler.maskNp = App.maskNp := by
  refine ⟨?_, ?_, ?_, getLastD_of_length_four, rfl⟩
  · intro image mask seed h
    rw [App_process_trace env st fs rid img] at h
    obtain ⟨rgb, rout, hR, hB, h1, h2, h3⟩ :=
      App_tryBody_infer_trace env st fs rid img image mask seed h
    exact ⟨rgb, rout, hR, hB, h2⟩
  · intro hs image mask seed h
    rw [Handler_handler_trace env st fs rid job s hs] at h
    obtain ⟨bytes, ii, rgb, rout, hD, hO, hR, hB, h1, h2, h3⟩ :=
      Handler_tryBody_infer_trace env st fs rid s image mask seed h
    exact ⟨bytes, ii, rgb, rout, hD, hO, hR, hB, h2⟩
  · intro rout
    simp [App.maskNp, App.lastBand, List.map_map, Function.comp]

/-- C5 witness: the concrete handler run's inference event carries the mask
built from the remover's output. -/
theorem c5_mask_from_alpha_witness :
    ∃ bytes ii rgb rout,
      b64decode "AA==" = some bytes ∧ testEnv.imageOpen bytes = .ok ii ∧
      Handler.rgbOf testEnv ii = .ok rgb ∧ testEnv.rembgRemove rgb = .ok rout ∧
      Handler.maskNp testRGBA = Handler.maskNp rout :=
  (c5_mask_from_alpha testEnv none [] "rid" "AA==" testImg
    ⟨[("image", "AA==")]⟩).2.1 rfl
    (Handler.imageNp testImg) (Handler.maskNp testRGBA) 42 (by decide)

/-- C10: assuming PIL's `convert("RGB")` contract, both entry points only
ever hand the background remover an RGB-mode image, and the array handed to
the inference object is the uint8 array of an RGB-mode image. -/
theorem c10_rgb_before_use (env : Env) (st : Option Model) (fs : FS)
    (rid s : String) (img : PImage) (job : Handler.Job)
    (hconv : ∀ i r, env.convert i = .ok r → r.mode = "RGB") :
    (∀ i r, App.rgbOf env i = .ok r → r.mode = "RGB") ∧
    (∀ i r, Handler.rgbOf env i = .ok r → r.mode = "RGB") ∧
    (∀ r, Event.rembgCall r ∈ (App.process env st fs rid (some img)).2.2.2 →
      r.mode = "RGB") ∧
    (∀ image mask seed,
      Event.inferCall image mask seed ∈ (App.process env st fs rid (some img)).2.2.2 →
      ∃ rgb, rgb.mode = "RGB" ∧ image = App.imageNp rgb ∧
        ∀ row ∈ image, ∀ px ∈ row, ∀ v ∈ px, v < 256) ∧
    (job.input.lookup "image" = some s →
      (∀ r, Event.rembgCall r ∈ (Handler.handler env st fs rid job).2.2.2 →
        r.mode = "RGB") ∧
      (∀ image mask seed,
        Event.inferCall image mask seed ∈ (Handler.handler env st fs rid job).2.2.2 →
        ∃ rgb, rgb.mode = "RGB" ∧ image = Handler.imageNp rgb ∧
          ∀ row ∈ image, ∀ px ∈ row, ∀ v ∈ px, v < 256)) := by
  have hpost : ∀ i r, App.rgbOf env i = .ok r → r.mode = "RGB" := by
    intro i r h
    unfold App.rgbOf at h
    by_cases hm : i.mode ≠ "RGB"
    · rw [if_pos hm] at h
      exact hconv i r h
    · rw [if_neg hm] at h
      have hir : i = r := by injection h
      subst hir
      push_neg at hm
      exact hm
  have hpost2 : ∀ i r, Handler.rgbOf env i = .ok r → r.mode = "RGB" := hpost
  refine ⟨hpost, hpost2, ?_, ?_, ?_⟩
  · intro r h
    rw [App_process_trace env st fs rid img] at h
    exact hpost img r (App_tryBody_rembg_trace env st fs rid img r h)
  · intro image mask seed h
    rw [App_process_trace env st fs rid img] at h
    obtain ⟨rgb, rout, hR, hB, h1, h2, h3⟩ :=
      App_tryBody_infer_trace env st fs rid img image mask seed h
    refine ⟨rgb, hpost img rgb hR, h1, ?_⟩
    subst h1
    exact App_imageNp_lt_256 rgb
  · intro hs
    constructor
    · intro r h
      rw [Handler_handler_trace env st fs rid job s hs] at h
      obtain ⟨bytes, ii, hD, hO, hR⟩ :=
        Handler_tryBody_rembg_trace env st fs rid s r h
      exact hpost2 ii r hR
    · intro image mask seed h
      rw [Handler_handler_trace env st fs rid job s hs] at h
      obtain ⟨bytes, ii, rgb, rout, hD, hO, hR, hB, h1, h2, h3⟩ :=
        Handler_tryBody_infer_trace env st fs rid s image mask seed h
      refine ⟨rgb, hpost2 ii rgb hR, h1, ?_⟩
      subst h1
      exact App_imageNp_lt_256 rgb

/-- C10 witness: in the concrete demo run the background remover received
an RGB-mode image. -/
theorem c10_rgb_before_use_witness :
    PImage.mode testImg = "RGB" :=
  (c10_rgb_before_use testEnv none [] "rid" "AA==" testImg ⟨[("image", "AA==")]⟩
    (by intro i r h; cases h; rfl)).2.2.1 testImg (by decide)

/-- C3: on the same input image the two entry points run the same
computation — literally the same `load_model`, RGB conversion, uint8 image
array, boolean mask, and filename construction — reach the same model
state and the same pipeline trace (in particular the same inference call
with seed 42), and differ only in how the saved bytes are returned: the
demo returns the file's path twice, the handler returns the file's bytes
base64-encoded under that filename and removes the file. -/
theorem c3_same_computation (env : Env) (st : Option Model) (fs : FS)
    (rid s : String) (job : Handler.Job) (img : PImage) (bytes : Bytes)
    (hjob : job.input.lookup "image" = some s)
    (hD : b64decode s = some bytes) (hO : env.imageOpen bytes = .ok img) :
    Handler.load_model = App.load_model ∧
    Handler.rgbOf = App.rgbOf ∧
    Handler.imageNp = App.imageNp ∧
    Handler.maskNp = App.maskNp ∧
    Handler.plyName = App.plyName ∧
    (Handler.handler env st fs rid job).2.1 =
      (App.process env st fs rid (some img)).2.1 ∧
    (Handler.handler env st fs rid job).2.2.2 =
      (App.process env st fs rid (some img)).2.2.2 ∧
    (∀ p1 p2 st1 fs1 tr,
      App.process env st fs rid (some img) = (.ok (p1, p2), st1, fs1, tr) →
      ∃ p B, p1 = some p ∧ p2 = some p ∧ fsRead fs1 p = .ok B ∧
        Handler.handler env st fs rid job =
          ([("ply", b64encode B), ("filename", App.plyName rid)],
           st1, fsRemove fs1 p, tr)) ∧
    (∀ e st1 fs1 tr,
      App.tryBody env st fs rid img = (.error e, st1, fs1, tr) →
      App.process env st fs rid (some img) =
        (.error ("Error processing image: " ++ e), st1, fs1, tr) ∧
      Handler.handler env st fs rid job = ([("error", e)], st1, fs1, tr)) := by
  refine ⟨rfl, rfl, rfl, rfl, rfl, ?_, ?_, ?_, ?_⟩
  · rcases hT : App.tryBody env st fs rid img with ⟨res, st2, fs2, tr2⟩
    rcases res with e | p
    · have hH := Handler_tryBody_err_transport env st fs rid s img bytes hD hO
        e st2 fs2 tr2 hT
      simp [Handler.handler, hjob, hH, App.process, hT]
    · obtain ⟨B, hRead, hH⟩ := Handler_tryBody_ok_transport env st fs rid s img
        bytes hD hO p st2 fs2 tr2 hT
      simp [Handler.handler, hjob, hH, App.process, hT]
  · rcases hT : App.tryBody env st fs rid img with ⟨res, st2, fs2, tr2⟩
    rcases res with e | p
    · have hH := Handler_tryBody_err_transport env st fs rid s img bytes hD hO
        e st2 fs2 tr2 hT
      simp [Handler.handler, hjob, hH, App.process, hT]
    · obtain ⟨B, hRead, hH⟩ := Handler_tryBody_ok_transport env st fs rid s img
        bytes hD hO p st2 fs2 tr2 hT
      simp [Handler.handler, hjob, hH, App.process, hT]
  · intro p1 p2 st1 fs1 tr hP
    rcases hT : App.tryBody env st fs rid img with ⟨res, st2, fs2, tr2⟩
    rcases res with e | p
    · rw [show App.process env st fs rid (some img) =
          (.error ("Error processing image: " ++ e), st2, fs2, tr2) from by
        simp [App.process, hT]] at hP
      simp at hP
    · rw [show App.process env st fs rid (some img) =
          (.ok (some p, some p), st2, fs2, tr2) from by
        simp [App.process, hT]] at hP
      simp only [Prod.mk.injEq, Except.ok.injEq] at hP
      obtain ⟨⟨h1, h2⟩, h3, h4, h5⟩ := hP
      subst h1 h2 h3 h4 h5
      obtain ⟨B, hRead, hH⟩ := Handler_tryBody_ok_transport env st fs rid s img
        bytes hD hO p st2 fs2 tr2 hT
      refine ⟨p, B, rfl, rfl, hRead, ?_⟩
      simp [Handler.handler, hjob, hH]
      rfl
  · intro e st1 fs1 tr hT
    constructor
    · simp [App.process, hT]
    · have hH := Handler_tryBody_err_transport env st fs rid s img bytes hD hO
        e st1 fs1 tr hT
      simp [Handler.handler, hjob, hH]

/-- C3 witness: on the concrete matched inputs the two entry points produce
the same pipeline trace. -/
theorem c3_same_computation_witness :
    (Handler.handler testEnv none [] "rid" ⟨[("image", "AA==")]⟩).2.2.2 =
      (App.process testEnv none [] "rid" (some testImg)).2.2.2 :=
  (c3_same_computation testEnv none [] "rid" "AA==" ⟨[("image", "AA==")]⟩
    testImg [0] rfl rfl rfl).2.2.2.2.2.2.1

end Sam3d
